import Mathlib

/-!
Verification development for the bulk-email backend in src/app.py.

The Python source is shallowly embedded as executable Lean definitions:

* CSV recipient rows (csv.DictReader output) are ordered association lists
  from column name to an optional string value, where a value of none
  models Python None.
* Python str.replace is embedded character-list-wise as a leftmost,
  non-overlapping literal substring replacement.
* The per-recipient loop of bulk_send_route is embedded as a pure function
  parameterised by two oracles: the external premailer transform (which may
  raise) and the SMTP send block (which may raise with a message).
* The on-disk log directories (csv_files/ and logs/) are embedded as
  association lists from file name to file content.
-/

/-- Python truthiness of an optional string: None and the empty string are
falsy, every other string (including pure whitespace) is truthy. -/
def truthyOpt (v : Option String) : Bool :=
  v.getD "" != ""

/-- A CSV recipient row as produced by csv.DictReader: ordered association
list from column name to value; a stored none models Python None. -/
abbrev Row := List (String × Option String)

/-- row.get(k): value of the first matching key, none when the key is absent
(matching Python, an absent key and a stored None are indistinguishable). -/
def rowGet (r : Row) (k : String) : Option String :=
  match r with
  | [] => none
  | (k₂, v) :: rest => if k₂ = k then v else rowGet rest k

/-- row.get(k, d): like rowGet but with a default for an absent key; a key
stored with value None still yields none, as in Python. -/
def rowGetD (r : Row) (k d : String) : Option String :=
  match r with
  | [] => some d
  | (k₂, v) :: rest => if k₂ = k then v else rowGetD rest k d

/-- recipient_name = row.get("name", "") or row.get("Name", "")
(src/app.py line 250). -/
def nameOf (r : Row) : Option String :=
  let a := rowGetD r "name" ""
  if truthyOpt a then a else rowGetD r "Name" ""

/-- Fuelled worker for Python str.replace on character lists: leftmost,
non-overlapping replacement of every occurrence of pat by rep. The fuel is
always instantiated with the length of the scanned list, which suffices
because every step consumes at least one character. -/
def replaceAllAux (pat rep : List Char) : Nat → List Char → List Char
  | _, [] => []
  | 0, s => s
  | fuel + 1, c :: cs =>
    if pat ≠ [] ∧ pat.isPrefixOf (c :: cs) then
      rep ++ replaceAllAux pat rep fuel (List.drop (pat.length - 1) cs)
    else
      c :: replaceAllAux pat rep fuel cs

/-- Python s.replace(pat, rep) for a non-empty pattern. -/
def pyReplace (s pat rep : String) : String :=
  ⟨replaceAllAux pat.data rep.data s.data.length s.data⟩

/-- Does pat occur as a contiguous substring of the list? Embeds the Python
expression pat in s. -/
def containsSub (pat : List Char) : List Char → Bool
  | [] => pat.isEmpty
  | c :: cs => pat.isPrefixOf (c :: cs) || containsSub pat cs

/-- Python needle in hay for strings. -/
def pyIn (needle hay : String) : Bool :=
  containsSub needle.data hay.data

/-- The placeholder substitution of src/app.py lines 260-264: for every
(key, value) pair of the row, in row order, when both key and value are
truthy, replace every literal occurrence of [key] by value. -/
def personalize (r : Row) (text : String) : String :=
  match r with
  | [] => text
  | (k, v) :: rest =>
    personalize rest
      (match v with
       | some val =>
         if k ≠ "" ∧ val ≠ "" then pyReplace text ("[" ++ k ++ "]") val else text
       | none => text)

/-- States that one application of the substitutions of row r left no
occurrence of [k] in u for any column k of r whose key and value are
truthy. -/
def noTokensLeft (r : Row) (u : String) : Bool :=
  match r with
  | [] => true
  | (k, v) :: rest =>
    (match v with
     | some val =>
       if k ≠ "" ∧ val ≠ "" then !(pyIn ("[" ++ k ++ "]") u) else true
     | none => true) && noTokensLeft rest u

/-- One send attempt as handed to log_email_attempt. -/
structure Attempt where
  email : String
  name : Option String
  subject : String
  status : String
  error : Option String
deriving DecidableEq, Repr

/-- The attempt record built for row r inside the bulk loop. -/
def attemptOf (r : Row) (ec psubj status : String) (err : Option String) : Attempt :=
  ⟨(rowGet r ec).getD "", nameOf r, psubj, status, err⟩

/-- One entry of the SMTP try block: the index of the recipient row for
which a send was attempted, the destination address and the personalized
body handed to the message. -/
structure SendRec where
  idx : Nat
  toAddr : String
  body : String
deriving DecidableEq, Repr

/-- Accumulated observable output of the bulk loop: the sent counter, the
failures list returned to the caller, the attempts handed to
log_email_attempt in order, and the SMTP sends attempted. -/
structure BulkOut where
  sent : Nat
  failed : List (Row × String)
  attempts : List Attempt
  sends : List SendRec
deriving DecidableEq, Repr

def emptyOut : BulkOut := ⟨0, [], [], []⟩

/-- Concatenation of two loop outputs in processing order. -/
def mergeOut (a b : BulkOut) : BulkOut :=
  ⟨a.sent + b.sent, a.failed ++ b.failed, a.attempts ++ b.attempts, a.sends ++ b.sends⟩

/-- The per-recipient loop of bulk_send_route (src/app.py lines 248-292).

tr is the external premailer transform applied to email_data each row (it
may raise, which aborts the whole batch because the call sits outside the
inner try); smtp is the oracle for the send block of row idx: none means
the block succeeded, some msg means it raised with message msg. The result
pairs the accumulated output with the aborting error, if any. -/
def loopAux (tr : String → Except String String) (smtp : Nat → Option String)
    (ec emailData subject : String) : Nat → List Row → BulkOut × Option String
  | _, [] => (emptyOut, none)
  | idx, r :: rs =>
    if truthyOpt (rowGet r ec) then
      match tr emailData with
      | .error e => (emptyOut, some e)
      | .ok inlined =>
        let body := personalize r inlined
        let psubj := personalize r subject
        match smtp idx with
        | none =>
          let rest := loopAux tr smtp ec emailData subject (idx + 1) rs
          (mergeOut ⟨1, [], [attemptOf r ec psubj "success" none],
            [⟨idx, (rowGet r ec).getD "", body⟩]⟩ rest.1, rest.2)
        | some msg =>
          let rest := loopAux tr smtp ec emailData subject (idx + 1) rs
          (mergeOut ⟨0, [(r, "SMTP error: " ++ msg)],
            [attemptOf r ec psubj "failure" (some ("SMTP error: " ++ msg))],
            [⟨idx, (rowGet r ec).getD "", body⟩]⟩ rest.1, rest.2)
    else
      let rest := loopAux tr smtp ec emailData subject (idx + 1) rs
      (mergeOut ⟨0, [(r, "Missing email")], [], []⟩ rest.1, rest.2)

/-- Python s.endswith(t) as a suffix test on character lists. -/
def pyEndsWith (s t : String) : Bool :=
  t.data.isSuffixOf s.data

/-- Python s.lower(), modelled on the ASCII range char by char. -/
def pyLower (s : String) : String :=
  ⟨s.data.map Char.toLower⟩

/-- Python s.upper(), modelled on the ASCII range char by char. -/
def pyUpper (s : String) : String :=
  ⟨s.data.map Char.toUpper⟩

/-- ASCII whitespace as stripped by Python str.strip(). -/
def pyIsSpace (c : Char) : Bool :=
  c = ' ' || c = '\t' || c = '\n' || c = '\r' || c = '\x0b' || c = '\x0c'

/-- Python s.strip(): removes leading and trailing whitespace. -/
def pyStrip (s : String) : String :=
  ⟨((s.data.dropWhile pyIsSpace).reverse.dropWhile pyIsSpace).reverse⟩

/-- One row of a daily CSV log file, as written by log_email_attempt
(header columns timestamp, name, email, subject, status, error). -/
structure CsvRecord where
  timestamp : String
  name : String
  email : String
  subject : String
  status : String
  error : String
deriving DecidableEq, Repr

/-- The two log directories of the program: csv_files/ and logs/, each an
ordered association list from file name to file content. -/
structure Store where
  csvFiles : List (String × List CsvRecord)
  logFiles : List (String × List String)
deriving DecidableEq, Repr

/-- Content of file name in a directory listing, empty when absent. -/
def filesGet (name : String) : List (String × List α) → List α
  | [] => []
  | (n, xs) :: rest => if n = name then xs else filesGet name rest

/-- Append one entry to file name, creating the file when absent. -/
def appendTo (name : String) (x : α) : List (String × List α) → List (String × List α)
  | [] => [(name, [x])]
  | (n, xs) :: rest =>
    if n = name then (n, xs ++ [x]) :: rest else (n, xs) :: appendTo name x rest

/-- Daily CSV log file name, src/app.py line 57. -/
def csvFileName (date : String) : String :=
  "email_logs_" ++ date ++ ".csv"

/-- Daily text log file name keyed by status, src/app.py line 77. -/
def txtFileName (status date : String) : String :=
  status ++ "_emails_" ++ date ++ ".txt"

/-- The CSV row written for one attempt (src/app.py lines 67-74):
name or N/A and error or empty string follow Python truthiness. -/
def csvRecOf (ts : String) (a : Attempt) : CsvRecord :=
  ⟨ts, if truthyOpt a.name then a.name.getD "" else "N/A",
   a.email, a.subject, a.status, a.error.getD ""⟩

/-- The text log line written for one attempt (src/app.py lines 79-82). -/
def logLineOf (ts : String) (a : Attempt) : String :=
  "[" ++ ts ++ "] " ++ pyUpper a.status ++ ": " ++ a.email ++ " (" ++
    (if truthyOpt a.name then a.name.getD "" else "N/A") ++ ") - Subject: " ++ a.subject ++
    (if truthyOpt a.error then " - Error: " ++ a.error.getD "" else "")

/-- log_email_attempt (src/app.py lines 52-92) as a transition on the log
directories: appends one row to the daily CSV file and one line to the
daily text file of the attempt status. ts is the second-precision
timestamp string and date the YYYYMMDD day key, both taken from the wall
clock at call time. -/
def log_email_attempt (ts date : String) (a : Attempt) (s : Store) : Store :=
  { csvFiles := appendTo (csvFileName date) (csvRecOf ts a) s.csvFiles,
    logFiles := appendTo (txtFileName a.status date) (logLineOf ts a) s.logFiles }

/-- The sequence of log_email_attempt calls issued by one bulk batch, each
attempt paired with its timestamp string, all dated date. -/
def runBatchLog (date : String) : List (String × Attempt) → Store → Store
  | [], s => s
  | (ts, a) :: rest, s => runBatchLog date rest (log_email_attempt ts date a s)

/-- The email-column search of src/app.py lines 227-231: first header
column whose stripped, lowered text is email. -/
def findEmailCol : List String → Option String
  | [] => none
  | c :: cs => if pyLower (pyStrip c) = "email" then some c else findEmailCol cs

/-- The uploaded CSV file of a bulk request: its file name and, when the
body decodes as UTF-8, the parsed header columns and data rows. -/
structure CsvUpload where
  filename : String
  content : Option (List String × List Row)
deriving DecidableEq, Repr

/-- The parts of a bulk-send request the handler reads: the email_data and
subject form fields (none when absent), the uploaded CSV file and the file
names of the optional attachment uploads. -/
structure BulkRequest where
  emailData : Option String
  subjectField : Option String
  csvFile : Option CsvUpload
  attachNames : List String
deriving DecidableEq, Repr

/-- The three response shapes of bulk_send_route: a 400 validation error,
the 200 counts response, or the 500 internal-error response. -/
inductive BulkOutcome where
  | badRequest (msg : String)
  | ok (sent : Nat) (failed : List (Row × String)) (total : Nat)
  | serverError (msg : String)
deriving DecidableEq, Repr

def BulkOutcome.isBadRequest : BulkOutcome → Bool
  | .badRequest _ => true
  | _ => false

def BulkOutcome.isServerError : BulkOutcome → Bool
  | .serverError _ => true
  | _ => false

/-- Full observable result of one bulk-send request: the HTTP outcome, the
attempts handed to log_email_attempt, the SMTP sends attempted, and the
attachment files still on disk under uploads/ when the handler returns. -/
structure RouteResult where
  outcome : BulkOutcome
  attempts : List Attempt
  sends : List SendRec
  uploadsLeft : List String
deriving DecidableEq, Repr

/-- bulk_send_route (src/app.py lines 197-301). Validations run in source
order; attachment files are saved under uploads/ after validation and
removed after the loop; an error aborting the loop reaches the outer
except handler, which returns 500 without removing the saved files. -/
def bulk_send_route (tr : String → Except String String) (smtp : Nat → Option String)
    (req : BulkRequest) : RouteResult :=
  if !truthyOpt req.emailData then
    ⟨.badRequest "Missing \"email_data\" in form-data. This is the HTML body of the email.", [], [], []⟩
  else
    match req.csvFile with
    | none => ⟨.badRequest "CSV file is required", [], [], []⟩
    | some up =>
      if !pyEndsWith (pyLower up.filename) ".csv" then
        ⟨.badRequest "Uploaded file must be a CSV", [], [], []⟩
      else
        match up.content with
        | none => ⟨.badRequest "Could not decode CSV file. Please use UTF-8 encoding.", [], [], []⟩
        | some (cols, rows) =>
          if rows.isEmpty then
            ⟨.badRequest "No recipients found in CSV. Ensure the file has a header row and at least one data row.", [], [], []⟩
          else
            match findEmailCol cols with
            | none => ⟨.badRequest "CSV must have an \"email\" column in the header.", [], [], []⟩
            | some ec =>
              let attach := (req.attachNames.filter (fun n => n ≠ "")).map (fun n => "uploads/" ++ n)
              let data := req.emailData.getD ""
              let subj := req.subjectField.getD "EduTech Promotion"
              match loopAux tr smtp ec data subj 0 rows with
              | (out, some e) =>
                ⟨.serverError ("Internal server error: " ++ e), out.attempts, out.sends, attach⟩
              | (out, none) =>
                ⟨.ok out.sent out.failed rows.length, out.attempts, out.sends, []⟩

/-- The three counters of get_mail_counts. -/
structure Counts where
  total : Nat
  sent : Nat
  failed : Nat
deriving DecidableEq, Repr

/-- One iteration of the row loop of get_mail_counts (src/app.py lines
342-347): total always increments; sent on status success, else failed on
status failure. -/
def countRow (c : Counts) (rec : CsvRecord) : Counts :=
  if rec.status = "success" then
    { total := c.total + 1, sent := c.sent + 1, failed := c.failed }
  else if rec.status = "failure" then
    { total := c.total + 1, sent := c.sent, failed := c.failed + 1 }
  else
    { total := c.total + 1, sent := c.sent, failed := c.failed }

def countRows (c : Counts) : List CsvRecord → Counts
  | [] => c
  | r :: rs => countRows (countRow c r) rs

/-- The file loop of get_mail_counts: only files whose name ends in .csv
are read. -/
def countFiles (c : Counts) : List (String × List CsvRecord) → Counts
  | [] => c
  | (n, rs) :: fs => countFiles (if pyEndsWith n ".csv" then countRows c rs else c) fs

/-- get_mail_counts (src/app.py lines 328-355). -/
def get_mail_counts (s : Store) : Counts :=
  countFiles ⟨0, 0, 0⟩ s.csvFiles

/-- clear_data (src/app.py lines 357-377): removes the files ending in
.csv under csv_files/ and the files ending in .txt under logs/. -/
def clear_data (s : Store) : Store :=
  { csvFiles := s.csvFiles.filter (fun f => !pyEndsWith f.1 ".csv"),
    logFiles := s.logFiles.filter (fun f => !pyEndsWith f.1 ".txt") }

/-- Line terminators recognised by Python str.splitlines. -/
def isLineBreakChar (c : Char) : Bool :=
  c = '\n' || c = '\r' || c = '\x0b' || c = '\x0c' ||
  c = '\x1c' || c = '\x1d' || c = '\x1e' || c = '\x85' ||
  c = '\u2028' || c = '\u2029'

/-- splitlines()[0] for a non-empty string: the prefix up to the first
line terminator. -/
def firstLine (s : String) : String :=
  ⟨s.data.takeWhile (fun c => !isLineBreakChar c)⟩

/-- Split a character list at the first occurrence of sep: some (pre, rest)
with the separator removed, none when sep does not occur. Embeds
line.split(sep, 1) when it yields two parts. -/
def splitFirstChar (sep : Char) : List Char → Option (List Char × List Char)
  | [] => none
  | c :: cs =>
    if c = sep then some ([], cs)
    else (splitFirstChar sep cs).map (fun p => (c :: p.1, p.2))

/-- The hardcoded fallback subject of src/app.py line 152. -/
def fallbackSubject : String :=
  "Registration for Workshop Infy Skill Edutech"

/-- The subject extraction of generate_email (src/app.py lines 151-152):
first line of the generated text; when it contains the case-insensitive
substring subject: the part after the first colon, stripped, else the
fallback. none models the IndexError of split(":", 1)[1] when no colon
exists, which the surrounding handler would turn into a 500. -/
def generate_email_subject (content : String) : Option String :=
  let line := firstLine content
  if pyIn "subject:" (pyLower line) then
    match splitFirstChar ':' line.data with
    | some (_, rest) => some (pyStrip ⟨rest⟩)
    | none => none
  else some fallbackSubject

/-! ## Lemmas about literal replacement and personalization -/

theorem containsSub_cons_false {pat : List Char} {c : Char} {cs : List Char}
    (h : containsSub pat (c :: cs) = false) :
    pat.isPrefixOf (c :: cs) = false ∧ containsSub pat cs = false := by
  simpa [containsSub, Bool.or_eq_false_iff] using h

theorem replaceAllAux_of_not_contains (pat rep : List Char) :
    ∀ (fuel : Nat) (s : List Char), containsSub pat s = false →
      replaceAllAux pat rep fuel s = s := by
  intro fuel
  induction fuel with
  | zero => intro s _; cases s <;> simp [replaceAllAux]
  | succ n ih =>
    intro s h
    cases s with
    | nil => simp [replaceAllAux]
    | cons c cs =>
      obtain ⟨h1, h2⟩ := containsSub_cons_false h
      simp only [replaceAllAux]
      rw [if_neg, ih cs h2]
      intro hc
      rw [hc.2] at h1
      exact absurd h1 (by simp)

theorem pyReplace_of_not_in (u pat rep : String) (h : pyIn pat u = false) :
    pyReplace u pat rep = u := by
  unfold pyReplace
  rw [replaceAllAux_of_not_contains pat.data rep.data u.data.length u.data h]

theorem personalize_of_noTokensLeft : ∀ (r : Row) (u : String),
    noTokensLeft r u = true → personalize r u = u := by
  intro r
  induction r with
  | nil => intro u _; rfl
  | cons kv rest ih =>
    intro u h
    obtain ⟨k, v⟩ := kv
    cases v with
    | none =>
      have h2 : noTokensLeft rest u = true := by simpa [noTokensLeft] using h
      simpa [personalize] using ih u h2
    | some val =>
      by_cases hg : k ≠ "" ∧ val ≠ ""
      · simp only [noTokensLeft, Bool.and_eq_true] at h
        obtain ⟨h1, h2⟩ := h
        rw [if_pos hg] at h1
        have h3 : pyIn ("[" ++ k ++ "]") u = false := by simpa using h1
        show personalize rest (if k ≠ "" ∧ val ≠ "" then pyReplace u ("[" ++ k ++ "]") val else u) = u
        rw [if_pos hg, pyReplace_of_not_in u _ _ h3]
        exact ih u h2
      · simp only [noTokensLeft, Bool.and_eq_true] at h
        show personalize rest (if k ≠ "" ∧ val ≠ "" then pyReplace u ("[" ++ k ++ "]") val else u) = u
        rw [if_neg hg]
        exact ih u h.2

/-- C4 (amended): placeholder substitution is idempotent whenever one
application of the substitutions of the row leaves no [column] token, for
any column of the row with truthy key and value, in the substituted text;
in general a second application can change the text further, because a
substituted value may itself create a new placeholder token. -/
theorem c4_substitution_idempotent (r : Row) (t : String)
    (h : noTokensLeft r (personalize r t) = true) :
    personalize r (personalize r t) = personalize r t :=
  personalize_of_noTokensLeft r (personalize r t) h

/-- C4 witness: a concrete row and text for which one substitution pass
removes every placeholder, so the second pass changes nothing. -/
theorem c4_substitution_idempotent_witness :
    personalize [("name", some "Alice")] (personalize [("name", some "Alice")] "Hi [name],") =
      personalize [("name", some "Alice")] "Hi [name]," :=
  c4_substitution_idempotent [("name", some "Alice")] "Hi [name]," (by decide)

/-- C4 counterexample: with row columns a = x and b = [a] and text [b],
the first pass yields [a] and the second pass yields x, so applying the
substitutions of the row twice is not idempotent as the claim states. -/
theorem c4_substitution_not_idempotent :
    ¬ (personalize [("a", some "x"), ("b", some "[a]")]
         (personalize [("a", some "x"), ("b", some "[a]")] "[b]") =
       personalize [("a", some "x"), ("b", some "[a]")] "[b]") := by
  decide

/-! ## Lemmas about the bulk loop -/

theorem mergeOut_empty_left (b : BulkOut) : mergeOut emptyOut b = b := by
  cases b; simp [mergeOut, emptyOut]

theorem mergeOut_assoc (a b c : BulkOut) :
    mergeOut (mergeOut a b) c = mergeOut a (mergeOut b c) := by
  cases a; cases b; cases c
  simp [mergeOut, Nat.add_assoc, List.append_assoc]

theorem loopAux_nil (tr : String → Except String String) (smtp : Nat → Option String)
    (ec d su : String) (idx : Nat) :
    loopAux tr smtp ec d su idx [] = (emptyOut, none) := rfl

theorem loopAux_cons_blank (tr : String → Except String String) (smtp : Nat → Option String)
    (ec d su : String) (idx : Nat) (r : Row) (rs : List Row)
    (ht : truthyOpt (rowGet r ec) = false) :
    loopAux tr smtp ec d su idx (r :: rs) =
      (mergeOut ⟨0, [(r, "Missing email")], [], []⟩ (loopAux tr smtp ec d su (idx + 1) rs).1,
       (loopAux tr smtp ec d su (idx + 1) rs).2) := by
  simp [loopAux, ht]

theorem loopAux_cons_abort (tr : String → Except String String) (smtp : Nat → Option String)
    (ec d su : String) (idx : Nat) (r : Row) (rs : List Row) (e : String)
    (ht : truthyOpt (rowGet r ec) = true) (htr : tr d = Except.error e) :
    loopAux tr smtp ec d su idx (r :: rs) = (emptyOut, some e) := by
  simp [loopAux, ht, htr]

theorem loopAux_cons_success (tr : String → Except String String) (smtp : Nat → Option String)
    (ec d su : String) (idx : Nat) (r : Row) (rs : List Row) (inl : String)
    (ht : truthyOpt (rowGet r ec) = true) (htr : tr d = Except.ok inl)
    (hs : smtp idx = none) :
    loopAux tr smtp ec d su idx (r :: rs) =
      (mergeOut ⟨1, [], [attemptOf r ec (personalize r su) "success" none],
         [⟨idx, (rowGet r ec).getD "", personalize r inl⟩]⟩
         (loopAux tr smtp ec d su (idx + 1) rs).1,
       (loopAux tr smtp ec d su (idx + 1) rs).2) := by
  simp [loopAux, ht, htr, hs]

theorem loopAux_cons_failure (tr : String → Except String String) (smtp : Nat → Option String)
    (ec d su : String) (idx : Nat) (r : Row) (rs : List Row) (inl msg : String)
    (ht : truthyOpt (rowGet r ec) = true) (htr : tr d = Except.ok inl)
    (hs : smtp idx = some msg) :
    loopAux tr smtp ec d su idx (r :: rs) =
      (mergeOut ⟨0, [(r, "SMTP error: " ++ msg)],
         [attemptOf r ec (personalize r su) "failure" (some ("SMTP error: " ++ msg))],
         [⟨idx, (rowGet r ec).getD "", personalize r inl⟩]⟩
         (loopAux tr smtp ec d su (idx + 1) rs).1,
       (loopAux tr smtp ec d su (idx + 1) rs).2) := by
  simp [loopAux, ht, htr, hs]

theorem loopAux_none (tr : String → Except String String) (smtp : Nat → Option String)
    (ec d su inl : String) (htr : tr d = Except.ok inl) :
    ∀ (rows : List Row) (idx : Nat), (loopAux tr smtp ec d su idx rows).2 = none := by
  intro rows
  induction rows with
  | nil => intro idx; rfl
  | cons r rs ih =>
    intro idx
    cases ht : truthyOpt (rowGet r ec)
    · rw [loopAux_cons_blank tr smtp ec d su idx r rs ht]
      exact ih (idx + 1)
    · cases hs : smtp idx
      · rw [loopAux_cons_success tr smtp ec d su idx r rs inl ht htr hs]
        exact ih (idx + 1)
      · rw [loopAux_cons_failure tr smtp ec d su idx r rs inl _ ht htr hs]
        exact ih (idx + 1)

theorem loopAux_append (tr : String → Except String String) (smtp : Nat → Option String)
    (ec d su : String) (ys : List Row) :
    ∀ (xs : List Row) (idx : Nat), (loopAux tr smtp ec d su idx xs).2 = none →
      loopAux tr smtp ec d su idx (xs ++ ys) =
        (mergeOut (loopAux tr smtp ec d su idx xs).1
           (loopAux tr smtp ec d su (idx + xs.length) ys).1,
         (loopAux tr smtp ec d su (idx + xs.length) ys).2) := by
  intro xs
  induction xs with
  | nil =>
    intro idx _
    rw [List.nil_append, loopAux_nil]
    simp [mergeOut_empty_left]
  | cons r rs ih =>
    intro idx hx
    have hlen : idx + (r :: rs).length = (idx + 1) + rs.length := by
      simp [List.length_cons]; omega
    cases ht : truthyOpt (rowGet r ec)
    · rw [loopAux_cons_blank tr smtp ec d su idx r rs ht] at hx
      rw [List.cons_append, loopAux_cons_blank tr smtp ec d su idx r (rs ++ ys) ht,
        ih (idx + 1) hx, hlen, loopAux_cons_blank tr smtp ec d su idx r rs ht]
      simp [mergeOut_assoc]
    · cases htr : tr d with
      | error e =>
        rw [loopAux_cons_abort tr smtp ec d su idx r rs e ht htr] at hx
        simp at hx
      | ok inl =>
        cases hs : smtp idx
        · rw [loopAux_cons_success tr smtp ec d su idx r rs inl ht htr hs] at hx
          rw [List.cons_append, loopAux_cons_success tr smtp ec d su idx r (rs ++ ys) inl ht htr hs,
            ih (idx + 1) hx, hlen, loopAux_cons_success tr smtp ec d su idx r rs inl ht htr hs]
          simp [mergeOut_assoc]
        · rw [loopAux_cons_failure tr smtp ec d su idx r rs inl _ ht htr hs] at hx
          rw [List.cons_append, loopAux_cons_failure tr smtp ec d su idx r (rs ++ ys) inl _ ht htr hs,
            ih (idx + 1) hx, hlen, loopAux_cons_failure tr smtp ec d su idx r rs inl _ ht htr hs]
          simp [mergeOut_assoc]

theorem loopAux_sum (tr : String → Except String String) (smtp : Nat → Option String)
    (ec d su : String) :
    ∀ (rows : List Row) (idx : Nat), (loopAux tr smtp ec d su idx rows).2 = none →
      (loopAux tr smtp ec d su idx rows).1.sent +
        (loopAux tr smtp ec d su idx rows).1.failed.length = rows.length := by
  intro rows
  induction rows with
  | nil => intro idx _; rfl
  | cons r rs ih =>
    intro idx h
    cases ht : truthyOpt (rowGet r ec)
    · rw [loopAux_cons_blank tr smtp ec d su idx r rs ht] at h ⊢
      have hsum := ih (idx + 1) h
      simp only [mergeOut, List.length_cons, List.length_append, List.length_nil]
      omega
    · cases htr : tr d with
      | error e =>
        rw [loopAux_cons_abort tr smtp ec d su idx r rs e ht htr] at h
        simp at h
      | ok inl =>
        cases hs : smtp idx
        · rw [loopAux_cons_success tr smtp ec d su idx r rs inl ht htr hs] at h ⊢
          have hsum := ih (idx + 1) h
          simp only [mergeOut, List.length_cons, List.length_append, List.length_nil]
          omega
        · rw [loopAux_cons_failure tr smtp ec d su idx r rs inl _ ht htr hs] at h ⊢
          have hsum := ih (idx + 1) h
          simp only [mergeOut, List.length_cons, List.length_append, List.length_nil]
          omega

theorem loopAux_attempts_length (tr : String → Except String String) (smtp : Nat → Option String)
    (ec d su : String) :
    ∀ (rows : List Row) (idx : Nat), (loopAux tr smtp ec d su idx rows).2 = none →
      (loopAux tr smtp ec d su idx rows).1.attempts.length =
        (rows.filter (fun r => truthyOpt (rowGet r ec))).length := by
  intro rows
  induction rows with
  | nil => intro idx _; rfl
  | cons r rs ih =>
    intro idx h
    cases ht : truthyOpt (rowGet r ec)
    · rw [loopAux_cons_blank tr smtp ec d su idx r rs ht] at h ⊢
      have := ih (idx + 1) h
      simp only [mergeOut, List.filter_cons, ht, List.nil_append]
      simpa using this
    · cases htr : tr d with
      | error e =>
        rw [loopAux_cons_abort tr smtp ec d su idx r rs e ht htr] at h
        simp at h
      | ok inl =>
        cases hs : smtp idx
        · rw [loopAux_cons_success tr smtp ec d su idx r rs inl ht htr hs] at h ⊢
          have := ih (idx + 1) h
          simp only [mergeOut, List.filter_cons, ht, if_true, List.length_cons,
            List.singleton_append]
          simpa using this
        · rw [loopAux_cons_failure tr smtp ec d su idx r rs inl _ ht htr hs] at h ⊢
          have := ih (idx + 1) h
          simp only [mergeOut, List.filter_cons, ht, if_true, List.length_cons,
            List.singleton_append]
          simpa using this

theorem loopAux_status (tr : String → Except String String) (smtp : Nat → Option String)
    (ec d su : String) :
    ∀ (rows : List Row) (idx : Nat), ∀ a ∈ (loopAux tr smtp ec d su idx rows).1.attempts,
      a.status = "success" ∨ a.status = "failure" := by
  intro rows
  induction rows with
  | nil => intro idx a ha; simp [loopAux_nil, emptyOut] at ha
  | cons r rs ih =>
    intro idx a ha
    cases ht : truthyOpt (rowGet r ec)
    · rw [loopAux_cons_blank tr smtp ec d su idx r rs ht] at ha
      simp only [mergeOut, List.nil_append] at ha
      exact ih (idx + 1) a ha
    · cases htr : tr d with
      | error e =>
        rw [loopAux_cons_abort tr smtp ec d su idx r rs e ht htr] at ha
        simp [emptyOut] at ha
      | ok inl =>
        cases hs : smtp idx
        · rw [loopAux_cons_success tr smtp ec d su idx r rs inl ht htr hs] at ha
          simp only [mergeOut, List.singleton_append, List.mem_cons] at ha
          rcases ha with ha | ha
          · left; rw [ha]; rfl
          · exact ih (idx + 1) a ha
        · rw [loopAux_cons_failure tr smtp ec d su idx r rs inl _ ht htr hs] at ha
          simp only [mergeOut, List.singleton_append, List.mem_cons] at ha
          rcases ha with ha | ha
          · right; rw [ha]; rfl
          · exact ih (idx + 1) a ha

theorem loopAux_missing_mem (tr : String → Except String String) (smtp : Nat → Option String)
    (ec d su : String) :
    ∀ (rows : List Row) (idx : Nat), (loopAux tr smtp ec d su idx rows).2 = none →
      ∀ r ∈ rows, truthyOpt (rowGet r ec) = false →
        (r, "Missing email") ∈ (loopAux tr smtp ec d su idx rows).1.failed := by
  intro rows
  induction rows with
  | nil => intro idx _ r hr; simp at hr
  | cons r₀ rs ih =>
    intro idx h r hr hb
    rcases List.mem_cons.mp hr with hr | hr
    · subst hr
      rw [loopAux_cons_blank tr smtp ec d su idx r rs hb] at h ⊢
      simp [mergeOut]
    · cases ht : truthyOpt (rowGet r₀ ec)
      · rw [loopAux_cons_blank tr smtp ec d su idx r₀ rs ht] at h ⊢
        simp only [mergeOut]
        exact List.mem_append_right _ (ih (idx + 1) h r hr hb)
      · cases htr : tr d with
        | error e =>
          rw [loopAux_cons_abort tr smtp ec d su idx r₀ rs e ht htr] at h
          simp at h
        | ok inl =>
          cases hs : smtp idx
          · rw [loopAux_cons_success tr smtp ec d su idx r₀ rs inl ht htr hs] at h ⊢
            simp only [mergeOut, List.nil_append]
            exact ih (idx + 1) h r hr hb
          · rw [loopAux_cons_failure tr smtp ec d su idx r₀ rs inl _ ht htr hs] at h ⊢
            simp only [mergeOut]
            exact List.mem_append_right _ (ih (idx + 1) h r hr hb)

theorem loopAux_sends_idx (tr : String → Except String String) (smtp : Nat → Option String)
    (ec d su : String) :
    ∀ (rows : List Row) (idx : Nat), ∀ sr ∈ (loopAux tr smtp ec d su idx rows).1.sends,
      ∃ j, ∃ hj : j < rows.length, sr.idx = idx + j ∧
        truthyOpt (rowGet (rows.get ⟨j, hj⟩) ec) = true := by
  intro rows
  induction rows with
  | nil => intro idx sr hsr; simp [loopAux_nil, emptyOut] at hsr
  | cons r rs ih =>
    intro idx sr hsr
    cases ht : truthyOpt (rowGet r ec)
    · rw [loopAux_cons_blank tr smtp ec d su idx r rs ht] at hsr
      simp only [mergeOut, List.nil_append] at hsr
      obtain ⟨j, hj, hidx, htr2⟩ := ih (idx + 1) sr hsr
      exact ⟨j + 1, by simpa using Nat.succ_lt_succ hj, by omega, by simpa using htr2⟩
    · cases htr : tr d with
      | error e =>
        rw [loopAux_cons_abort tr smtp ec d su idx r rs e ht htr] at hsr
        simp [emptyOut] at hsr
      | ok inl =>
        cases hs : smtp idx
        · rw [loopAux_cons_success tr smtp ec d su idx r rs inl ht htr hs] at hsr
          simp only [mergeOut, List.singleton_append, List.mem_cons] at hsr
          rcases hsr with hsr | hsr
          · exact ⟨0, by simp, by rw [hsr]; rfl, by simpa using ht⟩
          · obtain ⟨j, hj, hidx, htr2⟩ := ih (idx + 1) sr hsr
            exact ⟨j + 1, by simpa using Nat.succ_lt_succ hj, by omega, by simpa using htr2⟩
        · rw [loopAux_cons_failure tr smtp ec d su idx r rs inl _ ht htr hs] at hsr
          simp only [mergeOut, List.singleton_append, List.mem_cons] at hsr
          rcases hsr with hsr | hsr
          · exact ⟨0, by simp, by rw [hsr]; rfl, by simpa using ht⟩
          · obtain ⟨j, hj, hidx, htr2⟩ := ih (idx + 1) sr hsr
            exact ⟨j + 1, by simpa using Nat.succ_lt_succ hj, by omega, by simpa using htr2⟩

/-! ## Lemmas about the log directories -/

theorem filesGet_appendTo_self {α : Type} (name : String) (x : α) :
    ∀ fs : List (String × List α),
      filesGet name (appendTo name x fs) = filesGet name fs ++ [x] := by
  intro fs
  induction fs with
  | nil => simp [appendTo, filesGet]
  | cons f rest ih =>
    obtain ⟨n, xs⟩ := f
    by_cases hn : n = name
    · simp [appendTo, filesGet, hn]
    · simp [appendTo, filesGet, hn, ih]

theorem filesGet_appendTo_ne {α : Type} (name n₂ : String) (hne : n₂ ≠ name) (x : α) :
    ∀ fs : List (String × List α),
      filesGet n₂ (appendTo name x fs) = filesGet n₂ fs := by
  have hne2 : ¬ name = n₂ := fun h => hne h.symm
  intro fs
  induction fs with
  | nil => simp [appendTo, filesGet, hne2]
  | cons f rest ih =>
    obtain ⟨n, xs⟩ := f
    by_cases hn : n = name
    · subst hn
      simp [appendTo, filesGet, hne2]
    · by_cases hn₂ : n = n₂
      · simp [appendTo, filesGet, hn, hn₂, hne]
      · simp [appendTo, filesGet, hn, hn₂, ih]

theorem txtFileName_inj {s₁ s₂ d : String} (h : txtFileName s₁ d = txtFileName s₂ d) :
    s₁ = s₂ := by
  unfold txtFileName at h
  have h2 : s₁.data ++ ("_emails_" ++ d ++ ".txt").data =
      s₂.data ++ ("_emails_" ++ d ++ ".txt").data := by
    have h4 := congrArg String.data h
    simpa [String.data_append, List.append_assoc] using h4
  have h3 := List.append_cancel_right h2
  cases s₁; cases s₂
  exact congrArg String.mk h3

theorem log_csv_self (ts date : String) (a : Attempt) (s : Store) :
    filesGet (csvFileName date) (log_email_attempt ts date a s).csvFiles =
      filesGet (csvFileName date) s.csvFiles ++ [csvRecOf ts a] := by
  simp [log_email_attempt, filesGet_appendTo_self]

theorem log_txt_self (ts date : String) (a : Attempt) (s : Store) :
    filesGet (txtFileName a.status date) (log_email_attempt ts date a s).logFiles =
      filesGet (txtFileName a.status date) s.logFiles ++ [logLineOf ts a] := by
  simp [log_email_attempt, filesGet_appendTo_self]

theorem log_txt_ne (ts date st : String) (a : Attempt) (s : Store) (hne : st ≠ a.status) :
    filesGet (txtFileName st date) (log_email_attempt ts date a s).logFiles =
      filesGet (txtFileName st date) s.logFiles := by
  have : txtFileName st date ≠ txtFileName a.status date :=
    fun h => hne (txtFileName_inj h)
  simp [log_email_attempt, filesGet_appendTo_ne _ _ this]

theorem log_csv_preserved (ts date₂ date : String) (a : Attempt) (s : Store)
    (hne : date₂ ≠ date) :
    filesGet (csvFileName date₂) (log_email_attempt ts date a s).csvFiles =
      filesGet (csvFileName date₂) s.csvFiles := by
  have : csvFileName date₂ ≠ csvFileName date := by
    intro h
    apply hne
    unfold csvFileName at h
    have h2 := congrArg String.data h
    simp only [String.data_append, List.append_assoc] at h2
    have h3 := List.append_cancel_right (List.append_cancel_left h2)
    cases date₂; cases date
    exact congrArg String.mk h3
  simp [log_email_attempt, filesGet_appendTo_ne _ _ this]

theorem runBatchLog_csv (date : String) :
    ∀ (l : List (String × Attempt)) (s : Store),
      filesGet (csvFileName date) (runBatchLog date l s).csvFiles =
        filesGet (csvFileName date) s.csvFiles ++ l.map (fun p => csvRecOf p.1 p.2) := by
  intro l
  induction l with
  | nil => intro s; simp [runBatchLog]
  | cons p rest ih =>
    intro s
    obtain ⟨ts, a⟩ := p
    simp only [runBatchLog, List.map_cons]
    rw [ih, log_csv_self]
    simp [List.append_assoc]

theorem runBatchLog_txt (date st : String) :
    ∀ (l : List (String × Attempt)) (s : Store),
      filesGet (txtFileName st date) (runBatchLog date l s).logFiles =
        filesGet (txtFileName st date) s.logFiles ++
          (l.filter (fun p => p.2.status == st)).map (fun p => logLineOf p.1 p.2) := by
  intro l
  induction l with
  | nil => intro s; simp [runBatchLog]
  | cons p rest ih =>
    intro s
    obtain ⟨ts, a⟩ := p
    by_cases hst : a.status = st
    · subst hst
      simp only [runBatchLog, List.filter_cons, beq_self_eq_true, if_true, List.map_cons]
      rw [ih, log_txt_self]
      simp [List.append_assoc]
    · have hbeq : (a.status == st) = false := by
        simp [hst]
      simp only [runBatchLog, List.filter_cons, hbeq, Bool.false_eq_true, if_false]
      rw [ih, log_txt_ne ts date st a s (fun h => hst h.symm)]

/-! ## Claims about the bulk loop -/

/-- C2: for every bulk batch whose per-recipient loop completes, every
recipient row whose email value is missing, None or empty is recorded in
the returned failures list with error Missing email and no send is
attempted for it, and the returned sent count plus the length of the
returned failures list equals the number of recipient rows. -/
theorem c2_blank_email_failures (tr : String → Except String String)
    (smtp : Nat → Option String) (ec d su : String) (rows : List Row) (out : BulkOut)
    (h : loopAux tr smtp ec d su 0 rows = (out, none)) :
    out.sent + out.failed.length = rows.length ∧
    (∀ r ∈ rows, truthyOpt (rowGet r ec) = false → (r, "Missing email") ∈ out.failed) ∧
    (∀ i, ∀ hi : i < rows.length, truthyOpt (rowGet (rows.get ⟨i, hi⟩) ec) = false →
      ∀ sr ∈ out.sends, sr.idx ≠ i) := by
  have h2 : (loopAux tr smtp ec d su 0 rows).2 = none := by rw [h]
  have h1 : (loopAux tr smtp ec d su 0 rows).1 = out := by rw [h]
  refine ⟨?_, ?_, ?_⟩
  · have hsum := loopAux_sum tr smtp ec d su rows 0 h2
    rwa [h1] at hsum
  · intro r hr hb
    have hmem := loopAux_missing_mem tr smtp ec d su rows 0 h2 r hr hb
    rwa [h1] at hmem
  · intro i hi hb sr hsr
    rw [← h1] at hsr
    obtain ⟨j, hj, hidx, htv⟩ := loopAux_sends_idx tr smtp ec d su rows 0 sr hsr
    intro hcon
    rw [hcon] at hidx
    have hji : j = i := by omega
    subst hji
    have hfalse : truthyOpt (rowGet (rows.get ⟨j, hj⟩) ec) = false := hb
    rw [hfalse] at htv
    exact Bool.false_ne_true htv

/-- C2 witness: a two-row batch with one blank email and one valid email;
the sent count plus the failures count equals the two rows. -/
theorem c2_blank_email_failures_witness :
    ((loopAux (fun s => Except.ok s) (fun _ => none) "email" "B" "S" 0
        [[("email", some "")], [("email", some "c@x.com")]]).1).sent +
      ((loopAux (fun s => Except.ok s) (fun _ => none) "email" "B" "S" 0
        [[("email", some "")], [("email", some "c@x.com")]]).1).failed.length = 2 :=
  (c2_blank_email_failures (fun s => Except.ok s) (fun _ => none) "email" "B" "S"
    [[("email", some "")], [("email", some "c@x.com")]]
    ((loopAux (fun s => Except.ok s) (fun _ => none) "email" "B" "S" 0
        [[("email", some "")], [("email", some "c@x.com")]]).1) (by decide)).1

/-- C3 (amended): a failure of the per-recipient send block (message
construction, attachment reading or SMTP delivery) is appended to the
failures list as the pair of the row and the error text, is logged as a
failure attempt, and processing continues with the remaining rows exactly
as if run on them alone; given that the CSS-inlining transform succeeds on
the template, no such per-recipient failure ever aborts the batch. An
error raised by the CSS-inlining call itself, which sits outside the
per-recipient try block, does abort the batch. -/
theorem c3_bulk_continues_after_failure (tr : String → Except String String)
    (smtp : Nat → Option String) (ec d su inl msg : String)
    (pre post : List Row) (r : Row)
    (htr : tr d = Except.ok inl) (hr : truthyOpt (rowGet r ec) = true)
    (hs : smtp pre.length = some msg) :
    (∀ (rows : List Row) (idx : Nat), (loopAux tr smtp ec d su idx rows).2 = none) ∧
    loopAux tr smtp ec d su 0 (pre ++ r :: post) =
      (mergeOut (loopAux tr smtp ec d su 0 pre).1
        (mergeOut ⟨0, [(r, "SMTP error: " ++ msg)],
           [attemptOf r ec (personalize r su) "failure" (some ("SMTP error: " ++ msg))],
           [⟨pre.length, (rowGet r ec).getD "", personalize r inl⟩]⟩
          (loopAux tr smtp ec d su (pre.length + 1) post).1), none) ∧
    (r, "SMTP error: " ++ msg) ∈ (loopAux tr smtp ec d su 0 (pre ++ r :: post)).1.failed ∧
    attemptOf r ec (personalize r su) "failure" (some ("SMTP error: " ++ msg)) ∈
      (loopAux tr smtp ec d su 0 (pre ++ r :: post)).1.attempts := by
  have noabort := loopAux_none tr smtp ec d su inl htr
  have happ := loopAux_append tr smtp ec d su (r :: post) pre 0 (noabort pre 0)
  rw [Nat.zero_add] at happ
  rw [loopAux_cons_failure tr smtp ec d su pre.length r post inl msg hr htr hs] at happ
  refine ⟨noabort, ?_, ?_, ?_⟩
  · rw [happ, noabort post (pre.length + 1)]
  · rw [happ]
    simp [mergeOut]
  · rw [happ]
    simp [mergeOut]

/-- C3 witness: a single recipient whose send block raises boom; the
failure record and the failure attempt are present in the loop output. -/
theorem c3_bulk_continues_after_failure_witness :
    ([("email", some "a@x.com")], "SMTP error: " ++ "boom") ∈
      (loopAux (fun s => Except.ok s) (fun _ => some "boom") "email" "B" "S" 0
        ([] ++ [("email", some "a@x.com")] :: [])).1.failed :=
  (c3_bulk_continues_after_failure (fun s => Except.ok s) (fun _ => some "boom")
    "email" "B" "S" "B" "boom" [] [] [("email", some "a@x.com")]
    rfl (by decide) rfl).2.2.1

/-- C3 counterexample: when the CSS-inlining transform raises while the
first recipient row is processed, that per-recipient failure is neither
appended to the failures list nor logged, and the second row is never
attempted: the batch aborts, contradicting the claim as stated. -/
theorem c3_abort_on_transform_error :
    (loopAux (fun _ => Except.error "premailer fail") (fun _ => none) "email" "B" "S" 0
       [[("email", some "a@x.com")], [("email", some "b@x.com")]]).1.failed = [] ∧
    (loopAux (fun _ => Except.error "premailer fail") (fun _ => none) "email" "B" "S" 0
       [[("email", some "a@x.com")], [("email", some "b@x.com")]]).1.sends = [] ∧
    (loopAux (fun _ => Except.error "premailer fail") (fun _ => none) "email" "B" "S" 0
       [[("email", some "a@x.com")], [("email", some "b@x.com")]]).2 =
      some "premailer fail" := by
  decide

/-- C9: a recipient row whose email value is a non-empty string, even pure
whitespace, is not treated as missing: it is never recorded with error
Missing email, a send to exactly that string is attempted, and exactly one
attempt carrying that email is logged; only a missing key, a stored None
or an empty string takes the missing-email branch, which records the row
with error Missing email and attempts nothing. -/
theorem c9_whitespace_email_sent (tr : String → Except String String)
    (smtp : Nat → Option String) (ec d su inl : String) (idx : Nat) (r : Row) (v : String)
    (hget : rowGet r ec = some v) (hv : v ≠ "") (htr : tr d = Except.ok inl) :
    ((loopAux tr smtp ec d su idx [r]).2 = none) ∧
    (loopAux tr smtp ec d su idx [r]).1.sends = [⟨idx, v, personalize r inl⟩] ∧
    (∀ e, (r, e) ∈ (loopAux tr smtp ec d su idx [r]).1.failed → e ≠ "Missing email") ∧
    (∃ a, (loopAux tr smtp ec d su idx [r]).1.attempts = [a] ∧ a.email = v) ∧
    (∀ r₂ : Row, truthyOpt (rowGet r₂ ec) = false →
      loopAux tr smtp ec d su idx [r₂] = (⟨0, [(r₂, "Missing email")], [], []⟩, none)) := by
  have ht : truthyOpt (rowGet r ec) = true := by
    simp [truthyOpt, hget, hv]
  have hgetD : (rowGet r ec).getD "" = v := by rw [hget]; rfl
  have hblank : ∀ r₂ : Row, truthyOpt (rowGet r₂ ec) = false →
      loopAux tr smtp ec d su idx [r₂] = (⟨0, [(r₂, "Missing email")], [], []⟩, none) := by
    intro r₂ hb
    rw [loopAux_cons_blank tr smtp ec d su idx r₂ [] hb, loopAux_nil]
    simp [mergeOut, emptyOut]
  cases hsm : smtp idx
  · rw [loopAux_cons_success tr smtp ec d su idx r [] inl ht htr hsm, loopAux_nil]
    refine ⟨rfl, ?_, ?_, ?_, hblank⟩
    · simp [mergeOut, emptyOut, hgetD]
    · intro e he
      simp [mergeOut, emptyOut] at he
    · refine ⟨attemptOf r ec (personalize r su) "success" none, ?_, ?_⟩
      · simp [mergeOut, emptyOut]
      · simp [attemptOf, hgetD]
  · rw [loopAux_cons_failure tr smtp ec d su idx r [] inl _ ht htr hsm, loopAux_nil]
    refine ⟨rfl, ?_, ?_, ?_, hblank⟩
    · simp [mergeOut, emptyOut, hgetD]
    · intro e he
      simp [mergeOut, emptyOut] at he
      rw [he]
      intro hcon
      have hdata := congrArg String.data hcon
      simp [String.data_append] at hdata
    · rename_i msg2
      refine ⟨attemptOf r ec (personalize r su) "failure" (some ("SMTP error: " ++ msg2)), ?_, ?_⟩
      · simp [mergeOut, emptyOut]
      · simp [attemptOf, hgetD]

/-- C9 witness: a row whose email value is a single space is sent to,
not recorded as missing. -/
theorem c9_whitespace_email_sent_witness :
    (loopAux (fun s => Except.ok s) (fun _ => none) "email" "B" "S" 0
       [[("email", some " ")]]).1.sends = [⟨0, " ", personalize [("email", some " ")] "B"⟩] :=
  (c9_whitespace_email_sent (fun s => Except.ok s) (fun _ => none) "email" "B" "S" "B" 0
    [("email", some " ")] " " rfl (by decide) rfl).2.1

/-- C1 (amended): in a bulk batch whose recipient loop completes, every
recipient row with a truthy email value yields exactly one SendAttempt
(the attempts list has exactly one entry per such row, in order), every
attempt has status success or failure, and logging the attempts of the
batch appends each attempt exactly once as a row of the daily CSV file and
exactly once as a line of the daily text file of its status, both carrying
the same status and the same second-precision timestamp string. Rows
whose email value is missing, None or empty yield no SendAttempt and no
log entry; they appear only in the returned failures list. -/
theorem c1_attempt_logging (tr : String → Except String String)
    (smtp : Nat → Option String) (ec d su : String) (rows : List Row) (out : BulkOut)
    (h : loopAux tr smtp ec d su 0 rows = (out, none)) :
    out.attempts.length = (rows.filter (fun r => truthyOpt (rowGet r ec))).length ∧
    (∀ a ∈ out.attempts, a.status = "success" ∨ a.status = "failure") ∧
    (∀ (day : String) (s₀ : Store) (tss : List String), tss.length = out.attempts.length →
      (filesGet (csvFileName day) (runBatchLog day (tss.zip out.attempts) s₀).csvFiles =
        filesGet (csvFileName day) s₀.csvFiles ++
          (tss.zip out.attempts).map (fun p => csvRecOf p.1 p.2)) ∧
      (∀ st, filesGet (txtFileName st day) (runBatchLog day (tss.zip out.attempts) s₀).logFiles =
        filesGet (txtFileName st day) s₀.logFiles ++
          ((tss.zip out.attempts).filter (fun p => p.2.status == st)).map
            (fun p => logLineOf p.1 p.2))) := by
  have h2 : (loopAux tr smtp ec d su 0 rows).2 = none := by rw [h]
  have h1 : (loopAux tr smtp ec d su 0 rows).1 = out := by rw [h]
  refine ⟨?_, ?_, ?_⟩
  · have hlen := loopAux_attempts_length tr smtp ec d su rows 0 h2
    rwa [h1] at hlen
  · intro a ha
    rw [← h1] at ha
    exact loopAux_status tr smtp ec d su rows 0 a ha
  · intro day s₀ tss _
    exact ⟨runBatchLog_csv day (tss.zip out.attempts) s₀,
      fun st => runBatchLog_txt day st (tss.zip out.attempts) s₀⟩

/-- C1 witness: a one-row batch with a valid email yields exactly one
attempt, matching the one truthy-email row. -/
theorem c1_attempt_logging_witness :
    ((loopAux (fun s => Except.ok s) (fun _ => none) "email" "B" "S" 0
        [[("email", some "a@x.com")]]).1).attempts.length =
      ([[("email", some "a@x.com")]].filter
        (fun r => truthyOpt (rowGet r "email"))).length :=
  (c1_attempt_logging (fun s => Except.ok s) (fun _ => none) "email" "B" "S"
    [[("email", some "a@x.com")]]
    ((loopAux (fun s => Except.ok s) (fun _ => none) "email" "B" "S" 0
        [[("email", some "a@x.com")]]).1) (by decide)).1

/-- C1 counterexample: a one-row batch whose row carries an empty email
value yields no SendAttempt at all, so the attempt count differs from the
row count and no log entry is written for that row; the claim that every
recipient row yields exactly one SendAttempt fails. -/
theorem c1_blank_row_yields_no_attempt :
    ¬ ((loopAux (fun s => Except.ok s) (fun _ => none) "email" "B" "S" 0
         [[("email", some "")]]).1.attempts.length = [[("email", some "")]].length) := by
  decide

/-! ## Claims about the bulk route -/

/-- C5 (amended): whenever bulk_send_route returns without reaching the
outer exception handler — every validation-error response and every
counts response, including batches where rows failed — no attachment file
saved for the batch remains on disk; when an error aborts the recipient
loop (for example the CSS-inlining transform raising), the handler
returns 500 and the saved attachment files are not deleted. -/
theorem c5_attachments_deleted (tr : String → Except String String)
    (smtp : Nat → Option String) (req : BulkRequest)
    (h : (bulk_send_route tr smtp req).outcome.isServerError = false) :
    (bulk_send_route tr smtp req).uploadsLeft = [] := by
  cases he : truthyOpt req.emailData
  · simp [bulk_send_route, he]
  · cases hcf : req.csvFile with
    | none => simp [bulk_send_route, he, hcf]
    | some up =>
      cases hf : pyEndsWith (pyLower up.filename) ".csv"
      · simp [bulk_send_route, he, hcf, hf]
      · cases hco : up.content with
        | none => simp [bulk_send_route, he, hcf, hf, hco]
        | some cr =>
          obtain ⟨cols, rows⟩ := cr
          cases hre : rows.isEmpty
          · cases hec : findEmailCol cols with
            | none => simp [bulk_send_route, he, hcf, hf, hco, hre, hec]
            | some ec =>
              cases hloop : loopAux tr smtp ec (req.emailData.getD "")
                  (req.subjectField.getD "EduTech Promotion") 0 rows with
              | mk out err =>
                cases err with
                | none => simp [bulk_send_route, he, hcf, hf, hco, hre, hec, hloop]
                | some e =>
                  exfalso
                  simp [bulk_send_route, he, hcf, hf, hco, hre, hec, hloop,
                    BulkOutcome.isServerError] at h
          · simp [bulk_send_route, he, hcf, hf, hco, hre]

/-- C5 witness: a request with one valid recipient, an attachment and a
successful batch: nothing remains under uploads/. -/
theorem c5_attachments_deleted_witness :
    (bulk_send_route (fun s => Except.ok s) (fun _ => none)
       ⟨some "<p>B</p>", some "S",
        some ⟨"list.csv", some (["email"], [[("email", some "a@x.com")]])⟩,
        ["brochure.pdf"]⟩).uploadsLeft = [] :=
  c5_attachments_deleted (fun s => Except.ok s) (fun _ => none)
    ⟨some "<p>B</p>", some "S",
     some ⟨"list.csv", some (["email"], [[("email", some "a@x.com")]])⟩,
     ["brochure.pdf"]⟩ (by decide)

/-- C5 counterexample: the same request when the CSS-inlining transform
raises: the batch aborts with a 500 and the saved attachment file
uploads/brochure.pdf remains on disk, contradicting deletion regardless
of outcome. -/
theorem c5_attachment_remains_on_error :
    (bulk_send_route (fun _ => Except.error "premailer fail") (fun _ => none)
       ⟨some "<p>B</p>", some "S",
        some ⟨"list.csv", some (["email"], [[("email", some "a@x.com")]])⟩,
        ["brochure.pdf"]⟩).uploadsLeft = ["uploads/brochure.pdf"] ∧
    ¬ ((bulk_send_route (fun _ => Except.error "premailer fail") (fun _ => none)
       ⟨some "<p>B</p>", some "S",
        some ⟨"list.csv", some (["email"], [[("email", some "a@x.com")]])⟩,
        ["brochure.pdf"]⟩).uploadsLeft = []) := by
  decide

/-- C6: when the uploaded CSV decodes but its header has no column equal
to email after stripping and lowering, bulk_send_route returns a
validation error, attempts no send and logs no attempt, and saves no
attachment that would remain. -/
theorem c6_missing_email_column (tr : String → Except String String)
    (smtp : Nat → Option String) (req : BulkRequest) (up : CsvUpload)
    (cols : List String) (rows : List Row)
    (h1 : req.csvFile = some up) (h2 : up.content = some (cols, rows))
    (h3 : findEmailCol cols = none) :
    (bulk_send_route tr smtp req).outcome.isBadRequest = true ∧
    (bulk_send_route tr smtp req).attempts = [] ∧
    (bulk_send_route tr smtp req).sends = [] ∧
    (bulk_send_route tr smtp req).uploadsLeft = [] := by
  cases he : truthyOpt req.emailData
  · simp [bulk_send_route, he, BulkOutcome.isBadRequest]
  · cases hf : pyEndsWith (pyLower up.filename) ".csv"
    · simp [bulk_send_route, he, h1, hf, BulkOutcome.isBadRequest]
    · cases hre : rows.isEmpty
      · simp [bulk_send_route, he, h1, hf, h2, hre, h3, BulkOutcome.isBadRequest]
      · simp [bulk_send_route, he, h1, hf, h2, hre, BulkOutcome.isBadRequest]

/-- C6 witness: a CSV whose only header column is mail: the route answers
with a validation error and nothing is sent or logged. -/
theorem c6_missing_email_column_witness :
    (bulk_send_route (fun s => Except.ok s) (fun _ => none)
       ⟨some "<p>B</p>", some "S",
        some ⟨"list.csv", some (["mail"], [[("mail", some "a@x.com")]])⟩,
        []⟩).outcome.isBadRequest = true :=
  (c6_missing_email_column (fun s => Except.ok s) (fun _ => none)
    ⟨some "<p>B</p>", some "S",
     some ⟨"list.csv", some (["mail"], [[("mail", some "a@x.com")]])⟩, []⟩
    ⟨"list.csv", some (["mail"], [[("mail", some "a@x.com")]])⟩
    ["mail"] [[("mail", some "a@x.com")]] rfl rfl (by decide)).1

/-! ## Lemmas about the counters -/

/-- The rows of a directory listing that get_mail_counts actually reads:
the concatenated contents of the files whose name ends in .csv, in
listing order. -/
def csvRowsOfDir : List (String × List CsvRecord) → List CsvRecord
  | [] => []
  | (n, rs) :: rest => (if pyEndsWith n ".csv" then rs else []) ++ csvRowsOfDir rest

theorem countRows_append (xs ys : List CsvRecord) :
    ∀ c : Counts, countRows c (xs ++ ys) = countRows (countRows c xs) ys := by
  induction xs with
  | nil => intro c; rfl
  | cons r rs ih => intro c; simp only [List.cons_append, countRows]; exact ih (countRow c r)

theorem countFiles_eq (fs : List (String × List CsvRecord)) :
    ∀ c : Counts, countFiles c fs = countRows c (csvRowsOfDir fs) := by
  induction fs with
  | nil => intro c; rfl
  | cons f rest ih =>
    intro c
    obtain ⟨n, rs⟩ := f
    cases hn : pyEndsWith n ".csv"
    · simp only [countFiles, csvRowsOfDir, hn, Bool.false_eq_true, if_false, List.nil_append]
      exact ih c
    · simp only [countFiles, csvRowsOfDir, hn, if_true]
      rw [countRows_append]
      exact ih (countRows c rs)

theorem countRows_total (rs : List CsvRecord) :
    ∀ c : Counts, (countRows c rs).total = c.total + rs.length := by
  induction rs with
  | nil => intro c; rfl
  | cons r rest ih =>
    intro c
    simp only [countRows, List.length_cons]
    rw [ih (countRow c r)]
    have : (countRow c r).total = c.total + 1 := by
      unfold countRow
      by_cases h1 : r.status = "success"
      · simp [h1]
      · by_cases h2 : r.status = "failure" <;> simp [h1, h2]
    omega

theorem countRows_sent_failed (rs : List CsvRecord) :
    ∀ c : Counts, (countRows c rs).sent + (countRows c rs).failed =
      c.sent + c.failed +
        (rs.filter (fun rec => rec.status == "success" || rec.status == "failure")).length := by
  induction rs with
  | nil => intro c; rfl
  | cons r rest ih =>
    intro c
    simp only [countRows, List.filter_cons]
    by_cases h1 : r.status = "success"
    · have hb : (r.status == "success" || r.status == "failure") = true := by simp [h1]
      rw [hb, if_pos rfl]
      rw [ih (countRow c r)]
      have hs : (countRow c r).sent = c.sent + 1 ∧ (countRow c r).failed = c.failed := by
        unfold countRow; simp [h1]
      simp only [List.length_cons, hs.1, hs.2]
      omega
    · by_cases h2 : r.status = "failure"
      · have hb : (r.status == "success" || r.status == "failure") = true := by simp [h2]
        rw [hb, if_pos rfl]
        rw [ih (countRow c r)]
        have hs : (countRow c r).sent = c.sent ∧ (countRow c r).failed = c.failed + 1 := by
          unfold countRow; simp [h1, h2]
        simp only [List.length_cons, hs.1, hs.2]
        omega
      · have hb : (r.status == "success" || r.status == "failure") = false := by
          simp [h1, h2]
        rw [hb]
        simp only [Bool.false_eq_true, if_false]
        rw [ih (countRow c r)]
        have hs : (countRow c r).sent = c.sent ∧ (countRow c r).failed = c.failed := by
          unfold countRow; simp [h1, h2]
        rw [hs.1, hs.2]

theorem length_filter_eq_length_iff {α : Type} (p : α → Bool) :
    ∀ l : List α, ((l.filter p).length = l.length ↔ ∀ a ∈ l, p a = true) := by
  intro l
  induction l with
  | nil => simp
  | cons a rest ih =>
    rw [List.filter_cons]
    cases ha : p a
    · rw [if_neg (by simp)]
      simp only [List.length_cons]
      constructor
      · intro h
        exfalso
        have hle := List.length_filter_le p rest
        omega
      · intro h
        exfalso
        have h2 := h a (List.mem_cons_self a rest)
        rw [ha] at h2
        exact Bool.false_ne_true h2
    · rw [if_pos rfl]
      simp only [List.length_cons]
      constructor
      · intro h a2 ha2
        rcases List.mem_cons.mp ha2 with h2 | h2
        · rw [h2]; exact ha
        · exact (ih.mp (by omega)) a2 h2
      · intro h
        have h2 := ih.mpr (fun a2 ha2 => h a2 (List.mem_cons_of_mem a ha2))
        omega

theorem mem_csvRowsOfDir (rec : CsvRecord) :
    ∀ fs : List (String × List CsvRecord), rec ∈ csvRowsOfDir fs ↔
      ∃ f ∈ fs, pyEndsWith f.1 ".csv" = true ∧ rec ∈ f.2 := by
  intro fs
  induction fs with
  | nil => simp [csvRowsOfDir]
  | cons f rest ih =>
    obtain ⟨n, rs⟩ := f
    cases hn : pyEndsWith n ".csv"
    · simp only [csvRowsOfDir, hn, Bool.false_eq_true, if_false, List.nil_append, ih]
      constructor
      · rintro ⟨g, hg, hcsv, hmem⟩
        exact ⟨g, List.mem_cons_of_mem _ hg, hcsv, hmem⟩
      · rintro ⟨g, hg, hcsv, hmem⟩
        rcases List.mem_cons.mp hg with h2 | h2
        · subst h2; rw [hn] at hcsv; exact absurd hcsv (by simp)
        · exact ⟨g, h2, hcsv, hmem⟩
    · simp only [csvRowsOfDir, hn, if_pos rfl, List.mem_append, ih]
      constructor
      · rintro (hmem | ⟨g, hg, hcsv, hmem⟩)
        · exact ⟨(n, rs), List.mem_cons_self _ _, hn, hmem⟩
        · exact ⟨g, List.mem_cons_of_mem _ hg, hcsv, hmem⟩
      · rintro ⟨g, hg, hcsv, hmem⟩
        rcases List.mem_cons.mp hg with h2 | h2
        · subst h2; exact Or.inl hmem
        · exact Or.inr ⟨g, h2, hcsv, hmem⟩

/-- C10: for every state of the CSV log directory, the counts satisfy
sent plus failed at most total, with equality exactly when every row of
every readable .csv file has status success or failure; a row with any
other status is counted in total but in neither sub-count. -/
theorem c10_count_relation (s : Store) :
    (get_mail_counts s).sent + (get_mail_counts s).failed ≤ (get_mail_counts s).total ∧
    ((get_mail_counts s).sent + (get_mail_counts s).failed = (get_mail_counts s).total ↔
      ∀ f ∈ s.csvFiles, pyEndsWith f.1 ".csv" = true →
        ∀ rec ∈ f.2, rec.status = "success" ∨ rec.status = "failure") := by
  have he : get_mail_counts s = countRows ⟨0, 0, 0⟩ (csvRowsOfDir s.csvFiles) := by
    unfold get_mail_counts
    exact countFiles_eq s.csvFiles ⟨0, 0, 0⟩
  rw [he]
  rw [countRows_total (csvRowsOfDir s.csvFiles) ⟨0, 0, 0⟩,
    countRows_sent_failed (csvRowsOfDir s.csvFiles) ⟨0, 0, 0⟩]
  simp only [Nat.zero_add]
  constructor
  · exact List.length_filter_le _ _
  · rw [length_filter_eq_length_iff]
    constructor
    · intro h f hf hcsv rec hrec
      have hmem : rec ∈ csvRowsOfDir s.csvFiles :=
        (mem_csvRowsOfDir rec s.csvFiles).mpr ⟨f, hf, hcsv, hrec⟩
      have := h rec hmem
      simpa using this
    · intro h rec hrec
      obtain ⟨f, hf, hcsv, hmem⟩ := (mem_csvRowsOfDir rec s.csvFiles).mp hrec
      have := h f hf hcsv rec hmem
      simpa using this

/-! ## Claims about clearing and the file names -/

theorem pyEndsWith_append (x y : String) : pyEndsWith (x ++ y) y = true := by
  rw [pyEndsWith, String.data_append, List.isSuffixOf_iff_suffix]
  exact List.suffix_append x.data y.data

theorem csvFileName_ends (date : String) : pyEndsWith (csvFileName date) ".csv" = true := by
  have h : csvFileName date = ("email_logs_" ++ date) ++ ".csv" := by
    rw [csvFileName, String.append_assoc]
  rw [h]
  exact pyEndsWith_append _ _

theorem txtFileName_ends (st date : String) :
    pyEndsWith (txtFileName st date) ".txt" = true := by
  have h : txtFileName st date = ((st ++ "_emails_") ++ date) ++ ".txt" := by
    rw [txtFileName, String.append_assoc, String.append_assoc]
  rw [h]
  exact pyEndsWith_append _ _

theorem appendTo_fst {α : Type} (name : String) (x : α) :
    ∀ (fs : List (String × List α)) (f : String × List α), f ∈ appendTo name x fs →
      f.1 = name ∨ ∃ g ∈ fs, f.1 = g.1 := by
  intro fs
  induction fs with
  | nil =>
    intro f hf
    simp only [appendTo, List.mem_singleton] at hf
    exact Or.inl (by rw [hf])
  | cons g₀ rest ih =>
    intro f hf
    obtain ⟨n, xs⟩ := g₀
    by_cases hn : n = name
    · rw [appendTo, if_pos hn] at hf
      rcases List.mem_cons.mp hf with h2 | h2
      · exact Or.inl (by rw [h2, hn])
      · exact Or.inr ⟨f, List.mem_cons_of_mem _ h2, rfl⟩
    · rw [appendTo, if_neg hn] at hf
      rcases List.mem_cons.mp hf with h2 | h2
      · exact Or.inr ⟨(n, xs), List.mem_cons_self _ _, by rw [h2]⟩
      · rcases ih f h2 with h3 | ⟨g, hg, h3⟩
        · exact Or.inl h3
        · exact Or.inr ⟨g, List.mem_cons_of_mem _ hg, h3⟩

/-- Every file name the logger ever creates or touches keeps the suffix
discipline of its directory: .csv under csv_files/ and .txt under logs/.
This justifies the well-formedness hypotheses of the clearing claim for
every store reachable by logging alone. -/
theorem log_email_attempt_suffixes (ts date : String) (a : Attempt) (s : Store)
    (h1 : ∀ f ∈ s.csvFiles, pyEndsWith f.1 ".csv" = true)
    (h2 : ∀ f ∈ s.logFiles, pyEndsWith f.1 ".txt" = true) :
    (∀ f ∈ (log_email_attempt ts date a s).csvFiles, pyEndsWith f.1 ".csv" = true) ∧
    (∀ f ∈ (log_email_attempt ts date a s).logFiles, pyEndsWith f.1 ".txt" = true) := by
  constructor
  · intro f hf
    rcases appendTo_fst (csvFileName date) (csvRecOf ts a) s.csvFiles f hf with h3 | ⟨g, hg, h3⟩
    · rw [h3]; exact csvFileName_ends date
    · rw [h3]; exact h1 g hg
  · intro f hf
    rcases appendTo_fst (txtFileName a.status date) (logLineOf ts a) s.logFiles f hf
      with h3 | ⟨g, hg, h3⟩
    · rw [h3]; exact txtFileName_ends a.status date
    · rw [h3]; exact h2 g hg

/-- C8: on any store whose csv_files/ entries all end in .csv and whose
logs/ entries all end in .txt — which holds for every store the program
itself builds, by log_email_attempt_suffixes — clearing removes every
file of both directories, and a count query after the clear with no
intervening send returns zero for total, sent and failed. -/
theorem c8_clear_data (s : Store)
    (h1 : ∀ f ∈ s.csvFiles, pyEndsWith f.1 ".csv" = true)
    (h2 : ∀ f ∈ s.logFiles, pyEndsWith f.1 ".txt" = true) :
    (clear_data s).csvFiles = [] ∧ (clear_data s).logFiles = [] ∧
    get_mail_counts (clear_data s) = ⟨0, 0, 0⟩ := by
  have hc : (clear_data s).csvFiles = [] := by
    rw [clear_data]
    rw [List.filter_eq_nil_iff]
    intro f hf
    simp [h1 f hf]
  have hl : (clear_data s).logFiles = [] := by
    rw [clear_data]
    rw [List.filter_eq_nil_iff]
    intro f hf
    simp [h2 f hf]
  refine ⟨hc, hl, ?_⟩
  rw [get_mail_counts, hc]
  rfl

/-- C8 witness: the store produced by logging a single successful attempt
into empty directories; clearing empties both directories and the counts
are all zero. -/
theorem c8_clear_data_witness :
    get_mail_counts (clear_data (log_email_attempt "2025-01-01 10:00:00" "20250101"
      ⟨"a@x.com", some "Alice", "S", "success", none⟩ ⟨[], []⟩)) = ⟨0, 0, 0⟩ :=
  (c8_clear_data (log_email_attempt "2025-01-01 10:00:00" "20250101"
      ⟨"a@x.com", some "Alice", "S", "success", none⟩ ⟨[], []⟩)
    (by decide) (by decide)).2.2

/-! ## Claims about subject extraction -/

theorem toNat_char_ofNat_of_valid (n : Nat) (h : n.isValidChar) :
    (Char.ofNat n).toNat = n := by
  rw [Char.ofNat, dif_pos h]
  rfl

theorem toLower_eq_colon {c : Char} (h : Char.toLower c = ':') : c = ':' := by
  simp only [Char.toLower] at h
  by_cases hr : c.toNat ≥ 65 ∧ c.toNat ≤ 90
  · rw [if_pos hr] at h
    exfalso
    have hv : (c.toNat + 32).isValidChar := Or.inl (by omega)
    have h2 := congrArg Char.toNat h
    rw [toNat_char_ofNat_of_valid _ hv] at h2
    have h58 : (':').toNat = 58 := rfl
    rw [h58] at h2
    omega
  · rw [if_neg hr] at h
    exact h

theorem mem_of_containsSub {pat : List Char} {a : Char} (ha : a ∈ pat) :
    ∀ hay : List Char, containsSub pat hay = true → a ∈ hay := by
  intro hay
  induction hay with
  | nil =>
    intro h
    rw [containsSub, List.isEmpty_iff] at h
    subst h
    simp at ha
  | cons c cs ih =>
    intro h
    rw [containsSub, Bool.or_eq_true] at h
    rcases h with h | h
    · have hpre : pat <+: (c :: cs) := List.isPrefixOf_iff_prefix.mp h
      exact hpre.sublist.subset ha
    · exact List.mem_cons_of_mem c (ih h)

theorem splitFirstChar_of_mem {sep : Char} :
    ∀ l : List Char, sep ∈ l → ∃ pre rest, splitFirstChar sep l = some (pre, rest) := by
  intro l
  induction l with
  | nil => intro h; simp at h
  | cons c cs ih =>
    intro h
    by_cases hc : c = sep
    · exact ⟨[], cs, by simp [splitFirstChar, hc]⟩
    · have hmem : sep ∈ cs := by
        rcases List.mem_cons.mp h with h2 | h2
        · exact absurd h2.symm hc
        · exact h2
      obtain ⟨pre, rest, hsp⟩ := ih hmem
      exact ⟨c :: pre, rest, by simp [splitFirstChar, hc, hsp]⟩

theorem splitFirstChar_eq {sep : Char} :
    ∀ (l pre rest : List Char), splitFirstChar sep l = some (pre, rest) →
      l = pre ++ sep :: rest ∧ sep ∉ pre := by
  intro l
  induction l with
  | nil => intro pre rest h; simp [splitFirstChar] at h
  | cons c cs ih =>
    intro pre rest h
    by_cases hc : c = sep
    · rw [splitFirstChar, if_pos hc] at h
      simp only [Option.some.injEq, Prod.mk.injEq] at h
      obtain ⟨h1, h2⟩ := h
      subst h1; subst h2; subst hc
      exact ⟨rfl, by simp⟩
    · rw [splitFirstChar, if_neg hc] at h
      cases hsp : splitFirstChar sep cs with
      | none => rw [hsp] at h; simp at h
      | some p =>
        obtain ⟨p1, p2⟩ := p
        rw [hsp] at h
        simp only [Option.map_some', Option.some.injEq, Prod.mk.injEq] at h
        obtain ⟨h1, h2⟩ := h
        obtain ⟨hl, hnm⟩ := ih p1 p2 hsp
        subst h1; subst h2
        constructor
        · rw [hl, List.cons_append]
        · intro hmem
          rcases List.mem_cons.mp hmem with h3 | h3
          · exact hc h3.symm
          · exact hnm h3

/-- C7: for every non-empty generated text, the extracted subject is
computed from the first line: when the lowered line contains the literal
substring subject: the subject is the part of the line after the first
colon (the line decomposes as pre, a colon and rest with no colon in
pre), stripped of surrounding whitespace, and the extraction never
fails; otherwise the subject is the hardcoded fallback. -/
theorem c7_subject_extraction (content : String) (_hne : content ≠ "") :
    (pyIn "subject:" (pyLower (firstLine content)) = false →
      generate_email_subject content = some fallbackSubject) ∧
    (pyIn "subject:" (pyLower (firstLine content)) = true →
      ∃ pre rest : List Char,
        (firstLine content).data = pre ++ ':' :: rest ∧ ':' ∉ pre ∧
        generate_email_subject content = some (pyStrip ⟨rest⟩)) := by
  constructor
  · intro h
    simp only [generate_email_subject]
    rw [if_neg (by simp [h])]
  · intro h
    have hcolon_low : ':' ∈ (pyLower (firstLine content)).data :=
      mem_of_containsSub (by decide) _ h
    have hmap : ':' ∈ (firstLine content).data.map Char.toLower := hcolon_low
    obtain ⟨c, hc, hceq⟩ := List.mem_map.mp hmap
    have hc2 : c = ':' := toLower_eq_colon hceq
    subst hc2
    obtain ⟨pre, rest, hsp⟩ := splitFirstChar_of_mem (firstLine content).data hc
    obtain ⟨hdecomp, hnm⟩ := splitFirstChar_eq (firstLine content).data pre rest hsp
    refine ⟨pre, rest, hdecomp, hnm, ?_⟩
    simp only [generate_email_subject]
    rw [if_pos h, hsp]

/-- C7 witness: a generated text whose first line has no subject: marker
falls back to the hardcoded subject. -/
theorem c7_subject_extraction_witness :
    generate_email_subject "Hello\nWorld" = some fallbackSubject :=
  (c7_subject_extraction "Hello\nWorld" (by decide)).1 (by decide)
